import Mathlib

/-!
Shallow embedding of `folly/observer/detail/ObserverManager.h`
(`folly::observer_detail::ObserverManager` and its nested
`DependencyRecorder`), together with a small-step transition system for the
epoch / version-lock protocol.

Cores (nodes) are identified by natural numbers.  The manager state tracks:
  * `version`    — `std::atomic<size_t> version_{1}`;
  * `readers`    — the number of shared (reader) holds on `versionMutex_`;
    every task enqueued by `scheduleRefresh` moves a shared hold into its
    closure, so each pending or running task is counted here;
  * `tasks`      — the CurrentQueue; a task stores only the node identity
    (the closure captures the core weakly, `folly::to_weak_ptr`) together
    with a ghost field `schedVersion` recording the value of `version_` at
    the moment `scheduleRefresh` enqueued it (the code never stores this:
    the task reads `instance.version_` when it runs);
  * `coreVer`    — the live cores, as an association list id ↦ version; a
    destroyed core is simply absent (its weak handles fail to lock);
  * `refreshLog` — every invocation of `Core::refresh`, as (id, target).
-/

namespace ObserverManager

/-- A CurrentQueue task: weak node identity plus the ghost schedule-time
version. -/
structure Task where
  nodeId : Nat
  schedVersion : Nat
deriving DecidableEq, Repr

/-- State of the manager: global version, reader holds on the version mutex,
the CurrentQueue, the live cores and the log of refresh invocations. -/
structure MState where
  version : Nat
  readers : Nat
  tasks : List Task
  coreVer : List (Nat × Nat)
  refreshLog : List (Nat × Nat)
deriving DecidableEq, Repr

/-- The freshly constructed manager: `version_{1}`, no readers, empty
queues, no cores. -/
def MState.init : MState :=
  { version := 1, readers := 0, tasks := [], coreVer := [], refreshLog := [] }

/-- Look up a live core's version; `none` means the core has been
destroyed (a weak pointer to it no longer locks). -/
def lookupVer (cs : List (Nat × Nat)) (i : Nat) : Option Nat :=
  (cs.find? (fun p => p.1 == i)).map Prod.snd

/-- Overwrite a live core's version. -/
def setVer (cs : List (Nat × Nat)) (i v : Nat) : List (Nat × Nat) :=
  cs.map (fun p => if p.1 == i then (i, v) else p)

/-- Invocation of `Core::refresh(target)` on core `i` (the callee lives in
`observer/detail/Core.h`, outside this header): the call is recorded in
`refreshLog`.  Modelled from the spec: `refresh(targetVersion)` recomputes
if stale, advancing the node's own monotonic version to the target.  A dead
core is never the receiver of a call (callers hold a shared or freshly
locked pointer); that branch leaves the state unchanged. -/
def coreRefresh (s : MState) (i target : Nat) : MState :=
  match lookupVer s.coreVer i with
  | none => s
  | some v =>
      { s with
        refreshLog := s.refreshLog ++ [(i, target)]
        coreVer := if v < target then setVer s.coreVer i target else s.coreVer }

/-- Embeds `ObserverManager::scheduleRefresh(core, minVersion)` (header lines
64–81): if `core->getVersion() >= minVersion` it returns at once — before
touching `versionMutex_` and without enqueuing anything.  Otherwise it takes
a shared hold on `versionMutex_` (`readers + 1`; the hold is moved into the
task closure) and enqueues a task capturing the core weakly.  The ghost
field `schedVersion` records `version` at this instant. -/
def scheduleRefresh (s : MState) (i minVersion : Nat) : MState :=
  match lookupVer s.coreVer i with
  | none => s
  | some v =>
      if minVersion ≤ v then s
      else
        { s with
          readers := s.readers + 1
          tasks := s.tasks ++ [⟨i, s.version⟩] }

/-- The body of the task enqueued by `scheduleRefresh`: `coreWeak.lock()`;
on success call `coreShared->refresh(instance.version_)` — reading the
global version at run time — and on failure (core destroyed) do nothing. -/
def runTaskBody (s : MState) (t : Task) : MState :=
  match lookupVer s.coreVer t.nodeId with
  | none => s
  | some _ => coreRefresh s t.nodeId s.version

/-- Executing the task at the head of the CurrentQueue: pop it, run its
body, and release the shared hold it carried (`readers - 1`, the closure is
destroyed). -/
def runTask (s : MState) (t : Task) (rest : List Task) : MState :=
  let s1 := runTaskBody { s with tasks := rest } t
  { s1 with readers := s1.readers - 1 }

/-- A new core comes into existence with version 0 (`Core` construction;
no-op if the identity is already taken). -/
def createCore (s : MState) (i : Nat) : MState :=
  if (lookupVer s.coreVer i).isSome then s
  else { s with coreVer := s.coreVer ++ [(i, 0)] }

/-- The last owning reference to core `i` is dropped: the core disappears,
pending tasks that captured it weakly stay in the queue. -/
def destroyCore (s : MState) (i : Nat) : MState :=
  { s with coreVer := s.coreVer.filter (fun p => p.1 != i) }

/-- The NextQueueProcessor's epoch advance: grab `versionMutex_`
exclusively and bump `version_`.  Possible only when no reader holds the
mutex; the caller of this function must separately establish
`s.readers = 0` (see `Step.advance`). -/
def advanceVersion (s : MState) : MState :=
  { s with version := s.version + 1 }

/-- The outcome of an operation guarded by a `DCHECK`: either a result, or
a failed debug assertion (fatal in debug builds). -/
inductive DResult (α : Type) : Type where
  | ok : α → DResult α
  | dcheckFailed : DResult α
deriving DecidableEq, Repr

/-- Embeds `ObserverManager::initCore(core)` (header lines 87–102):
`DCHECK(core->getVersion() == 0)` — fatal in debug builds when violated —
then, on the main context with `inManagerThread_` forced true and a shared
hold on `versionMutex_`, synchronously `core->refresh(instance.version_)`.
`debug` stands for whether `DCHECK` is active. -/
def initCore (debug : Bool) (s : MState) (i : Nat) : DResult MState :=
  match lookupVer s.coreVer i with
  | none => DResult.ok s
  | some v =>
      if debug && (v != 0) then DResult.dcheckFailed
      else DResult.ok (coreRefresh s i s.version)

/-- One step of the manager: scheduling, running a queued task, core
lifecycle, or the epoch advance — which requires that no shared hold on
`versionMutex_` is outstanding (read-priority writer acquisition succeeds
only with zero readers). -/
inductive Step : MState → MState → Prop where
  | schedule (s : MState) (i minVersion : Nat) :
      Step s (scheduleRefresh s i minVersion)
  | runQueued (s : MState) (t : Task) (rest : List Task)
      (h : s.tasks = t :: rest) : Step s (runTask s t rest)
  | create (s : MState) (i : Nat) : Step s (createCore s i)
  | destroy (s : MState) (i : Nat) : Step s (destroyCore s i)
  | advance (s : MState) (h : s.readers = 0) : Step s (advanceVersion s)

/-- States reachable from the freshly constructed manager. -/
def Reachable (s : MState) : Prop :=
  Relation.ReflTransGen Step MState.init s

/-- The protocol invariant: every pending task still sees the epoch it was
scheduled in (its shared hold on `versionMutex_` blocks the writer), and
the reader count covers every pending task. -/
def Inv (s : MState) : Prop :=
  s.tasks.length ≤ s.readers ∧ ∀ t ∈ s.tasks, t.schedVersion = s.version

/-!
NextQueue (`scheduleRefreshNewVersion` / `scheduleNext`).  Only the
declaration of `ObserverManager::scheduleNext` is in this header (line 222);
its body lives in `ObserverManager.cpp`, outside `src/`.

Modelled from the spec: the NextQueue maps a node identity to its most
recent update producer; a later `scheduleRefreshNewVersion` for the same
identity replaces — does not append to — the pending entry, and the epoch
advance drains the queue invoking each retained producer exactly once.
Producers are represented by opaque tags paired with the node identity they
produce.
-/

/-- Modelled from the spec: `scheduleRefreshNewVersion(producer)` records
`producer` into the NextQueue keyed by node identity, replacing any prior
pending producer for that identity. -/
def scheduleRefreshNewVersion (q : List (Nat × Nat)) (ident producer : Nat) :
    List (Nat × Nat) :=
  q.filter (fun e => e.1 != ident) ++ [(ident, producer)]

/-- The pending NextQueue entries for one node identity. -/
def pendingFor (q : List (Nat × Nat)) (ident : Nat) : List (Nat × Nat) :=
  q.filter (fun e => e.1 == ident)

/-!
`ObserverManager::DependencyRecorder` (header lines 127–212).  The
thread-local pointer `currentDependencies_` is modelled as an optional
frame identifier into a store of allocated `Dependencies` frames; each
recorder object holds its own frame id and the saved
`previousDepedencies_`.  A frame is the `Dependencies` struct: the owning
`Core` identity plus the accumulated `DependencySet` (an
`std::unordered_set`, modelled as a duplicate-free list).
-/

/-- The `Dependencies` struct: owning core plus accumulated set. -/
structure Frame where
  owner : Nat
  deps : List Nat
deriving DecidableEq, Repr

/-- A `DependencyRecorder` object: the id of its `dependencies_` frame and
the saved `previousDepedencies_` pointer. -/
structure Recorder where
  id : Nat
  previous : Option Nat
deriving DecidableEq, Repr

/-- The thread-local recorder state: `currentDependencies_`, the store of
allocated frames, and a fresh-id counter. -/
structure RecState where
  current : Option Nat
  frames : List (Nat × Frame)
  fresh : Nat
deriving DecidableEq, Repr

/-- The state of a thread before any recorder is constructed. -/
def RecState.none0 : RecState :=
  { current := none, frames := [], fresh := 0 }

def lookupFrame (fs : List (Nat × Frame)) (i : Nat) : Option Frame :=
  (fs.find? (fun p => p.1 == i)).map Prod.snd

def updateFrame (fs : List (Nat × Frame)) (i : Nat) (g : Frame → Frame) :
    List (Nat × Frame) :=
  fs.map (fun p => if p.1 == i then (p.1, g p.2) else p)

/-- Insertion into an `std::unordered_set`: add unless already present. -/
def insertDep (l : List Nat) (d : Nat) : List Nat :=
  if d ∈ l then l else l ++ [d]

/-- The `DependencyRecorder(core)` constructor (lines 137–142): save
`currentDependencies_` into `previousDepedencies_` and install this
recorder's empty `dependencies_` frame as current. -/
def mkRecorder (s : RecState) (owner : Nat) : Recorder × RecState :=
  (⟨s.fresh, s.current⟩,
   { current := some s.fresh
     frames := s.frames ++ [(s.fresh, ⟨owner, []⟩)]
     fresh := s.fresh + 1 })

/-- Embeds `DependencyRecorder::isActive()` (line 144): whether
`currentDependencies_` is non-null. -/
def isActive (s : RecState) : Bool :=
  s.current.isSome

/-- Embeds `DependencyRecorder::markDependency(dep)` (lines 156–161):
`DCHECK(currentDependencies_)` — the debug assertion fails when no frame is
active — then insert into `currentDependencies_->dependencies`. -/
def markDependency (s : RecState) (dep : Nat) : DResult RecState :=
  match s.current with
  | none => DResult.dcheckFailed
  | some i =>
      DResult.ok
        { s with
          frames := updateFrame s.frames i
            (fun f => { f with deps := insertDep f.deps dep }) }

/-- A sequence of `markDependency` calls, stopping at the first failed
assertion. -/
def markAll (s : RecState) : List Nat → DResult RecState
  | [] => DResult.ok s
  | d :: ds =>
      match markDependency s d with
      | DResult.ok s1 => markAll s1 ds
      | DResult.dcheckFailed => DResult.dcheckFailed

/-- Embeds `DependencyRecorder::release()` (lines 193–199):
`DCHECK(currentDependencies_ == &dependencies_)`, swap
`currentDependencies_` with `previousDepedencies_` (restoring the saved
frame as current), null the saved pointer, and move out the accumulated
dependency set. -/
def releaseRecorder (s : RecState) (r : Recorder) :
    DResult (List Nat × RecState) :=
  if s.current = some r.id then
    match lookupFrame s.frames r.id with
    | some f => DResult.ok (f.deps, { s with current := r.previous })
    | none => DResult.dcheckFailed
  else DResult.dcheckFailed

/-- Embeds `withDependencyRecordingDisabled(f)` (lines 146–154): null
`currentDependencies_`, run `f`, and restore the saved pointer on every
exit path (`SCOPE_EXIT`), returning exactly what `f` returns.  `f` is an
arbitrary state transformer that may also throw (`Except.error`). -/
def withDependencyRecordingDisabled {ε α : Type}
    (f : RecState → Except ε α × RecState) (s : RecState) :
    Except ε α × RecState :=
  let saved := s.current
  let fr := f { s with current := none }
  (fr.1, { fr.2 with current := saved })

/-!
Cycle detection (`markRefreshDependency` / `unmarkRefreshDependency`,
lines 163–191).  `kIsDebug` is passed explicitly as `debug`.  The
`GraphCycleDetector` itself lives in
`experimental/observer/detail/GraphCycleDetector.h`, outside `src/`.

Modelled from the spec: `addEdge(from, to)` returns false — the edge would
close a cycle — exactly when `to` can already reach `from` (including
`to = from`); `removeEdge(from, to)` deletes the edge.  Reachability is
computed as a bounded closure over the finite edge list.
-/

/-- The cycle-detector graph over core identities. -/
structure CycleDetector where
  edges : List (Nat × Nat)
deriving DecidableEq, Repr

/-- One expansion round of the reachable set. -/
def reachStep (edges : List (Nat × Nat)) (seen : List Nat) : List Nat :=
  edges.foldl
    (fun acc e => if e.1 ∈ acc ∧ e.2 ∉ acc then acc ++ [e.2] else acc) seen

/-- Modelled from the spec: whether `b` is reachable from `a` (in zero or
more steps) in the detector graph; `edges.length` rounds reach the fixed
point. -/
def canReach (edges : List (Nat × Nat)) (a b : Nat) : Bool :=
  decide (b ∈ (fun seen => reachStep edges seen)^[edges.length + 1] [a])

/-- The outcome of an operation that may `LOG(FATAL)`. -/
inductive FResult (α : Type) : Type where
  | ok : α → FResult α
  | fatal : FResult α
deriving DecidableEq, Repr

/-- Embeds `markRefreshDependency(core)` (lines 163–178): no-op unless `kIsDebug`;
no-op (silent, no assertion) when `currentDependencies_` is null; otherwise
add the edge current-owner → `core` to the shared detector and
`LOG(FATAL)` if it closes a cycle. -/
def markRefreshDependency (debug : Bool) (s : RecState) (cd : CycleDetector)
    (core : Nat) : FResult CycleDetector :=
  if !debug then FResult.ok cd
  else
    match s.current with
    | none => FResult.ok cd
    | some i =>
        match lookupFrame s.frames i with
        | none => FResult.ok cd
        | some f =>
            if canReach cd.edges core f.owner then FResult.fatal
            else FResult.ok ⟨cd.edges ++ [(f.owner, core)]⟩

/-- Embeds `unmarkRefreshDependency(core)` (lines 180–191): no-op unless
`kIsDebug`; no-op when `currentDependencies_` is null; otherwise remove the
edge current-owner → `core`. -/
def unmarkRefreshDependency (debug : Bool) (s : RecState) (cd : CycleDetector)
    (core : Nat) : CycleDetector :=
  if !debug then cd
  else
    match s.current with
    | none => cd
    | some i =>
        match lookupFrame s.frames i with
        | none => cd
        | some f => ⟨cd.edges.filter (fun e => e != (f.owner, core))⟩

/-!  Lemmas about the transition system. -/

/-- Case split: `scheduleRefresh` either leaves the state unchanged (dead core, or the
core is already at `minVersion`) or enqueues one task stamped with the
current version while taking one shared hold. -/
theorem scheduleRefresh_cases (s : MState) (i mv : Nat) :
    scheduleRefresh s i mv = s ∨
    scheduleRefresh s i mv =
      { s with readers := s.readers + 1, tasks := s.tasks ++ [⟨i, s.version⟩] } := by
  unfold scheduleRefresh
  cases lookupVer s.coreVer i with
  | none => exact Or.inl rfl
  | some v =>
      by_cases h : mv ≤ v
      · exact Or.inl (by simp [h])
      · exact Or.inr (by simp [h])

/-- Running a task whose weak capture fails to lock: only the queue and the
reader count change. -/
theorem runTask_dead (s : MState) (t : Task) (rest : List Task)
    (h : lookupVer s.coreVer t.nodeId = none) :
    runTask s t rest = { s with tasks := rest, readers := s.readers - 1 } := by
  unfold runTask runTaskBody
  simp [h]

/-- Running a task whose core is still alive: the task calls
`refresh(version_)`, reading the global version at run time. -/
theorem runTask_alive (s : MState) (t : Task) (rest : List Task) (v : Nat)
    (h : lookupVer s.coreVer t.nodeId = some v) :
    runTask s t rest =
      { s with
        tasks := rest
        readers := s.readers - 1
        refreshLog := s.refreshLog ++ [(t.nodeId, s.version)]
        coreVer :=
          if v < s.version then setVer s.coreVer t.nodeId s.version
          else s.coreVer } := by
  unfold runTask runTaskBody coreRefresh
  simp [h]

/-- The protocol invariant is preserved by every step. -/
theorem inv_step {s s2 : MState} (hs : Inv s) (h : Step s s2) : Inv s2 := by
  cases h with
  | schedule i mv =>
      rcases scheduleRefresh_cases s i mv with h1 | h1
      · rw [h1]; exact hs
      · rw [h1]
        refine ⟨?_, ?_⟩
        · simpa using Nat.succ_le_succ hs.1
        · intro t ht
          rcases List.mem_append.mp ht with h2 | h2
          · exact hs.2 t h2
          · simp only [List.mem_singleton] at h2
            subst h2
            rfl
  | runQueued t rest ht =>
      have hlen : rest.length + 1 ≤ s.readers := by
        have := hs.1
        rw [ht] at this
        simpa using this
      have hrest : ∀ t2 ∈ rest, t2.schedVersion = s.version := by
        intro t2 h2
        exact hs.2 t2 (by rw [ht]; exact List.mem_cons_of_mem t h2)
      cases hl : lookupVer s.coreVer t.nodeId with
      | none =>
          rw [runTask_dead s t rest hl]
          exact ⟨Nat.le_pred_of_lt hlen, hrest⟩
      | some v =>
          rw [runTask_alive s t rest v hl]
          exact ⟨Nat.le_pred_of_lt hlen, hrest⟩
  | create i =>
      unfold createCore
      split
      · exact hs
      · exact hs
  | destroy i => exact hs
  | advance h =>
      have htasks : s.tasks = [] := by
        have h1 := hs.1
        rw [h] at h1
        exact List.eq_nil_of_length_eq_zero (Nat.le_zero.mp h1)
      refine ⟨?_, ?_⟩
      · show s.tasks.length ≤ s.readers
        rw [htasks]
        exact Nat.zero_le _
      · intro t ht
        have ht2 : t ∈ s.tasks := ht
        rw [htasks] at ht2
        cases ht2

/-- Every reachable state satisfies the protocol invariant. -/
theorem reachable_inv {s : MState} (h : Reachable s) : Inv s := by
  unfold Reachable at h
  induction h with
  | refl => exact ⟨Nat.le_refl _, by intro t ht; cases ht⟩
  | tail h1 h2 ih => exact inv_step ih h2

/-- No step ever decreases the global version. -/
theorem step_version_mono {s s2 : MState} (h : Step s s2) :
    s.version ≤ s2.version := by
  cases h with
  | schedule i mv =>
      rcases scheduleRefresh_cases s i mv with h1 | h1 <;> rw [h1]
  | runQueued t rest ht =>
      cases hl : lookupVer s.coreVer t.nodeId with
      | none => rw [runTask_dead s t rest hl]
      | some v => rw [runTask_alive s t rest v hl]
  | create i =>
      unfold createCore
      split
      · exact Nat.le_refl _
      · exact Nat.le_refl _
  | destroy i => exact Nat.le_refl _
  | advance h => exact Nat.le_succ _

/-!  Lemmas about the NextQueue and the dependency recorder. -/

/-- No entry for `i` survives filtering the NextQueue by a different
identity. -/
theorem pendingFor_filter_ne (q : List (Nat × Nat)) (i : Nat) :
    pendingFor (q.filter (fun e => e.1 != i)) i = [] := by
  induction q with
  | nil => rfl
  | cons e q ih =>
      by_cases h : e.1 = i
      · rw [List.filter_cons_of_neg (by simp [h])]
        exact ih
      · rw [List.filter_cons_of_pos (by simp [h])]
        unfold pendingFor at ih ⊢
        rw [List.filter_cons_of_neg (by simp [h])]
        exact ih

/-- After one `scheduleRefreshNewVersion`, the only pending entry for the
identity is the one just recorded. -/
theorem pendingFor_scheduleRefreshNewVersion (q : List (Nat × Nat))
    (i p : Nat) :
    pendingFor (scheduleRefreshNewVersion q i p) i = [(i, p)] := by
  unfold scheduleRefreshNewVersion
  unfold pendingFor at *
  rw [List.filter_append]
  have h1 := pendingFor_filter_ne q i
  unfold pendingFor at h1
  rw [h1]
  simp

/-- Updating the frame at key `i` is observed by lookup at `i` exactly as
applying the update function. -/
theorem lookupFrame_updateFrame (fs : List (Nat × Frame)) (i : Nat)
    (g : Frame → Frame) :
    lookupFrame (updateFrame fs i g) i = (lookupFrame fs i).map g := by
  induction fs with
  | nil => rfl
  | cons p fs ih =>
      by_cases h : p.1 = i
      · unfold updateFrame lookupFrame
        rw [List.map_cons, if_pos (by simp [h])]
        rw [List.find?_cons_of_pos _ (by simp [h]),
          List.find?_cons_of_pos _ (by simp [h])]
        rfl
      · unfold updateFrame lookupFrame at ih ⊢
        rw [List.map_cons, if_neg (by simp [h])]
        rw [List.find?_cons_of_neg _ (by simp [h]),
          List.find?_cons_of_neg _ (by simp [h])]
        exact ih

/-- Looking up a freshly appended frame whose key is new to the store. -/
theorem lookupFrame_append_new (fs : List (Nat × Frame)) (i : Nat) (f : Frame)
    (h : ∀ p ∈ fs, p.1 ≠ i) :
    lookupFrame (fs ++ [(i, f)]) i = some f := by
  induction fs with
  | nil =>
      unfold lookupFrame
      rw [List.nil_append, List.find?_cons_of_pos _ (by simp)]
      rfl
  | cons p fs ih =>
      have hp : p.1 ≠ i := h p (List.mem_cons_self p fs)
      have ih2 := ih (fun q hq => h q (List.mem_cons_of_mem p hq))
      unfold lookupFrame at ih2 ⊢
      rw [List.cons_append, List.find?_cons_of_neg _ (by simp [hp])]
      exact ih2

/-- A run of `markDependency` calls under an active frame `i` succeeds,
keeps that frame current, and folds every dependency into its set. -/
theorem markAll_spec (ds : List Nat) (s : RecState) (i : Nat)
    (h : s.current = some i) :
    ∃ s2, markAll s ds = DResult.ok s2 ∧ s2.current = some i ∧
      s2.fresh = s.fresh ∧
      lookupFrame s2.frames i =
        (lookupFrame s.frames i).map
          (fun f => ⟨f.owner, ds.foldl insertDep f.deps⟩) := by
  induction ds generalizing s with
  | nil =>
      refine ⟨s, rfl, h, rfl, ?_⟩
      cases lookupFrame s.frames i <;> rfl
  | cons d ds ih =>
      have hmark :
          markDependency s d =
            DResult.ok
              { s with
                frames := updateFrame s.frames i
                  (fun f => { f with deps := insertDep f.deps d }) } := by
        unfold markDependency
        rw [h]
      obtain ⟨s2, hm, hc, hfr, hl⟩ :=
        ih { s with
              frames := updateFrame s.frames i
                (fun f => { f with deps := insertDep f.deps d }) } h
      refine ⟨s2, ?_, hc, hfr, ?_⟩
      · unfold markAll
        rw [hmark]
        exact hm
      · rw [hl, lookupFrame_updateFrame]
        cases lookupFrame s.frames i <;> rfl

/-!  The claims. -/

/-- Claim C1: for every node scheduled via `scheduleRefresh` whose version
is below `minVersion` and which is still alive when its enqueued task runs,
the task invokes `node.refresh` with a target version equal to the global
epoch version at the moment the task was scheduled.  The task's shared hold
on `versionMutex_` (counted in `readers`) blocks `Step.advance`, so in any
reachable state the version a pending task reads at run time equals the
ghost `schedVersion` stamped at schedule time. -/
theorem scheduleRefresh_task_refreshes_at_schedule_epoch (s : MState)
    (hr : Reachable s) (t : Task) (rest : List Task)
    (ht : s.tasks = t :: rest) (v : Nat)
    (halive : lookupVer s.coreVer t.nodeId = some v) :
    t.schedVersion = s.version ∧
    (runTask s t rest).refreshLog =
      s.refreshLog ++ [(t.nodeId, t.schedVersion)] := by
  have hinv := reachable_inv hr
  have hmem : t ∈ s.tasks := by
    rw [ht]
    exact List.mem_cons_self t rest
  have hv := hinv.2 t hmem
  refine ⟨hv, ?_⟩
  rw [runTask_alive s t rest v halive, hv]

/-- Witness for C1: create core 7, schedule it past version 0; running the
pending task refreshes core 7 at version 1, the epoch at schedule time. -/
theorem scheduleRefresh_task_refreshes_at_schedule_epoch_witness :
    Task.schedVersion ⟨7, 1⟩ =
      (scheduleRefresh (createCore MState.init 7) 7 1).version ∧
    (runTask (scheduleRefresh (createCore MState.init 7) 7 1)
        ⟨7, 1⟩ []).refreshLog =
      (scheduleRefresh (createCore MState.init 7) 7 1).refreshLog ++
        [(7, 1)] := by
  have hreach : Reachable (scheduleRefresh (createCore MState.init 7) 7 1) :=
    Relation.ReflTransGen.tail
      (Relation.ReflTransGen.tail Relation.ReflTransGen.refl
        (Step.create MState.init 7))
      (Step.schedule (createCore MState.init 7) 7 1)
  exact scheduleRefresh_task_refreshes_at_schedule_epoch _ hreach
    ⟨7, 1⟩ [] (by decide) 0 (by decide)

/-- Claim C2: if `node.version >= minVersion` then `scheduleRefresh` is a
no-op — the state (in particular the reader count on `versionMutex_`, the
CurrentQueue and the refresh log) is unchanged — no matter how many times
it is called. -/
theorem scheduleRefresh_upToDate_noop (s : MState) (i mv v : Nat)
    (h : lookupVer s.coreVer i = some v) (hge : mv ≤ v) (n : Nat) :
    (fun st => scheduleRefresh st i mv)^[n] s = s := by
  have h1 : scheduleRefresh s i mv = s := by
    unfold scheduleRefresh
    rw [h]
    exact if_pos hge
  exact Function.iterate_fixed h1 n

/-- Witness for C2: core 4 at version 1 after `initCore`; five schedules at
`minVersion = 1` leave the state untouched. -/
theorem scheduleRefresh_upToDate_noop_witness :
    (fun st => scheduleRefresh st 4 1)^[5]
        (coreRefresh (createCore MState.init 4) 4 1) =
      coreRefresh (createCore MState.init 4) 4 1 :=
  scheduleRefresh_upToDate_noop (coreRefresh (createCore MState.init 4) 4 1)
    4 1 1 (by decide) (by decide) 5

/-- Claim C3: a later `scheduleRefreshNewVersion` for the same node
identity before the next drain replaces the pending entry: the NextQueue
retains exactly one entry for that identity, holding the producer of the
last call, and the drain — which invokes each retained entry once —
performs exactly one recompute, with the second producer.  (Modelled from
the spec: only the declaration of `scheduleNext` is in this header.) -/
theorem scheduleRefreshNewVersion_dedup (q : List (Nat × Nat))
    (i p1 p2 : Nat) :
    pendingFor
        (scheduleRefreshNewVersion (scheduleRefreshNewVersion q i p1) i p2)
        i =
      [(i, p2)] :=
  pendingFor_scheduleRefreshNewVersion (scheduleRefreshNewVersion q i p1) i p2

/-- Claim C4: the task captures the node weakly (a `Task` stores only the
identity, never keeping the core alive); if the core is destroyed before
the task runs, the weak lock fails and the task completes silently —
the queue entry is consumed and the shared hold released, but no refresh is
invoked, no core is touched, and no error is produced. -/
theorem runTask_dead_node_silent (s : MState) (t : Task) (rest : List Task)
    (h : lookupVer s.coreVer t.nodeId = none) :
    runTask s t rest = { s with tasks := rest, readers := s.readers - 1 } := by
  unfold runTask runTaskBody
  simp [h]

/-- Witness for C4: schedule core 7, destroy it, run the task: no refresh
is logged and the state only loses the task and its reader hold. -/
theorem runTask_dead_node_silent_witness :
    runTask (destroyCore (scheduleRefresh (createCore MState.init 7) 7 1) 7)
        ⟨7, 1⟩ [] =
      { destroyCore (scheduleRefresh (createCore MState.init 7) 7 1) 7 with
        tasks := []
        readers :=
          (destroyCore (scheduleRefresh (createCore MState.init 7) 7 1)
              7).readers - 1 } :=
  runTask_dead_node_silent
    (destroyCore (scheduleRefresh (createCore MState.init 7) 7 1) 7)
    ⟨7, 1⟩ [] (by decide)

/-- Claim C5: the global version counter starts at 1 (`version_{1}`) and
never decreases over any sequence of manager steps. -/
theorem version_starts_at_one_and_monotone :
    MState.init.version = 1 ∧
    ∀ s s2 : MState, Relation.ReflTransGen Step s s2 →
      s.version ≤ s2.version := by
  refine ⟨rfl, ?_⟩
  intro s s2 h
  induction h with
  | refl => exact Nat.le_refl _
  | tail h1 h2 ih => exact Nat.le_trans ih (step_version_mono h2)

/-- Witness for C5: the fresh manager reports version 1 and one epoch
advance does not decrease it. -/
theorem version_starts_at_one_and_monotone_witness :
    MState.init.version = 1 ∧
    MState.init.version ≤ (advanceVersion MState.init).version :=
  ⟨version_starts_at_one_and_monotone.1,
   version_starts_at_one_and_monotone.2 MState.init (advanceVersion MState.init)
     (Relation.ReflTransGen.single (Step.advance MState.init rfl))⟩

/-- Claim C6: in debug builds `markRefreshDependency(core)` adds the edge
from the currently recording node to `core` in the shared cycle detector,
`LOG(FATAL)` if that edge would close a cycle, and
`unmarkRefreshDependency` removes the edge; with `kIsDebug = false` both
are no-ops. -/
theorem markRefreshDependency_cycle_detection (s : RecState)
    (cd : CycleDetector) (core i : Nat) (f : Frame)
    (hcur : s.current = some i) (hf : lookupFrame s.frames i = some f) :
    (markRefreshDependency false s cd core = FResult.ok cd ∧
      unmarkRefreshDependency false s cd core = cd) ∧
    (canReach cd.edges core f.owner = false →
      markRefreshDependency true s cd core =
        FResult.ok ⟨cd.edges ++ [(f.owner, core)]⟩) ∧
    (canReach cd.edges core f.owner = true →
      markRefreshDependency true s cd core = FResult.fatal) ∧
    unmarkRefreshDependency true s cd core =
      ⟨cd.edges.filter (fun e => e != (f.owner, core))⟩ := by
  refine ⟨⟨rfl, rfl⟩, ?_, ?_, ?_⟩
  · intro h
    simp [markRefreshDependency, hcur, hf, h]
  · intro h
    simp [markRefreshDependency, hcur, hf, h]
  · simp [unmarkRefreshDependency, hcur, hf]

/-- Witness for C6: recording frame owned by core 1, detector holding the
edge 2 → 1; marking core 2 would close the cycle 1 → 2 → 1 and is fatal;
with `kIsDebug = false` nothing happens. -/
theorem markRefreshDependency_cycle_detection_witness :
    (markRefreshDependency false ⟨some 0, [(0, ⟨1, []⟩)], 1⟩ ⟨[(2, 1)]⟩ 2 =
        FResult.ok ⟨[(2, 1)]⟩ ∧
      unmarkRefreshDependency false ⟨some 0, [(0, ⟨1, []⟩)], 1⟩ ⟨[(2, 1)]⟩ 2 =
        ⟨[(2, 1)]⟩) ∧
    (canReach [(2, 1)] 2 1 = false →
      markRefreshDependency true ⟨some 0, [(0, ⟨1, []⟩)], 1⟩ ⟨[(2, 1)]⟩ 2 =
        FResult.ok ⟨[(2, 1)] ++ [(1, 2)]⟩) ∧
    (canReach [(2, 1)] 2 1 = true →
      markRefreshDependency true ⟨some 0, [(0, ⟨1, []⟩)], 1⟩ ⟨[(2, 1)]⟩ 2 =
        FResult.fatal) ∧
    unmarkRefreshDependency true ⟨some 0, [(0, ⟨1, []⟩)], 1⟩ ⟨[(2, 1)]⟩ 2 =
      ⟨[(2, 1)].filter (fun e => e != (1, 2))⟩ :=
  markRefreshDependency_cycle_detection ⟨some 0, [(0, ⟨1, []⟩)], 1⟩
    ⟨[(2, 1)]⟩ 2 0 ⟨1, []⟩ rfl (by decide)

/-- Claim C7: the recorder obeys thread-local stack discipline —
construction saves the previously active frame and installs its own empty
frame as current; `markDependency` inserts into the innermost active
frame's set; `release()` restores the saved frame as current and returns
the accumulated dependency set by ownership transfer. -/
theorem dependencyRecorder_stack_discipline (s : RecState) (owner : Nat)
    (ds : List Nat) (hwf : ∀ p ∈ s.frames, p.1 < s.fresh) :
    (mkRecorder s owner).1.previous = s.current ∧
    (mkRecorder s owner).2.current = some (mkRecorder s owner).1.id ∧
    lookupFrame (mkRecorder s owner).2.frames (mkRecorder s owner).1.id =
      some ⟨owner, []⟩ ∧
    ∃ s2, markAll (mkRecorder s owner).2 ds = DResult.ok s2 ∧
      releaseRecorder s2 (mkRecorder s owner).1 =
        DResult.ok (ds.foldl insertDep [], { s2 with current := s.current }) := by
  have hnew :
      lookupFrame (mkRecorder s owner).2.frames s.fresh = some ⟨owner, []⟩ :=
    lookupFrame_append_new s.frames s.fresh ⟨owner, []⟩
      (fun p hp => Nat.ne_of_lt (hwf p hp))
  refine ⟨rfl, rfl, hnew, ?_⟩
  obtain ⟨s2, hm, hc, hfr, hl⟩ :=
    markAll_spec ds (mkRecorder s owner).2 s.fresh rfl
  refine ⟨s2, hm, ?_⟩
  have hc2 : s2.current = some (mkRecorder s owner).1.id := hc
  have hl2 : lookupFrame s2.frames (mkRecorder s owner).1.id =
      some ⟨owner, ds.foldl insertDep []⟩ := by
    show lookupFrame s2.frames s.fresh = _
    rw [hl, hnew]
    rfl
  unfold releaseRecorder
  rw [if_pos hc2, hl2]
  rfl

/-- Witness for C7: a fresh thread, a recorder for core 3, marks
[5, 5, 8]: release returns the deduplicated set [5, 8] and restores the
empty active frame. -/
theorem dependencyRecorder_stack_discipline_witness :
    (mkRecorder RecState.none0 3).1.previous = RecState.none0.current ∧
    (mkRecorder RecState.none0 3).2.current =
      some (mkRecorder RecState.none0 3).1.id ∧
    lookupFrame (mkRecorder RecState.none0 3).2.frames
        (mkRecorder RecState.none0 3).1.id =
      some ⟨3, []⟩ ∧
    ∃ s2, markAll (mkRecorder RecState.none0 3).2 [5, 5, 8] = DResult.ok s2 ∧
      releaseRecorder s2 (mkRecorder RecState.none0 3).1 =
        DResult.ok ([5, 5, 8].foldl insertDep [],
          { s2 with current := RecState.none0.current }) :=
  dependencyRecorder_stack_discipline RecState.none0 3 [5, 5, 8] (by decide)

/-- Claim C8: `withDependencyRecordingDisabled(f)` nulls the active frame
for the duration of `f` (so `isActive()` is false inside), restores the
previously active frame on every exit path — including when `f` throws —
and returns exactly the result of `f`. -/
theorem withDependencyRecordingDisabled_restores {ε α : Type}
    (f : RecState → Except ε α × RecState) (s : RecState) :
    (withDependencyRecordingDisabled f s).1 =
      (f { s with current := none }).1 ∧
    isActive { s with current := none } = false ∧
    (withDependencyRecordingDisabled f s).2.current = s.current :=
  ⟨rfl, rfl, rfl⟩

/-- Witness for C8: a concrete throwing-capable computation run with
recording disabled returns its own result, with the active frame restored. -/
theorem withDependencyRecordingDisabled_restores_witness :
    (withDependencyRecordingDisabled
        (fun st => ((Except.ok 42 : Except Unit Nat), st))
        RecState.none0).1 =
      ((fun st => ((Except.ok 42 : Except Unit Nat), st))
        { RecState.none0 with current := none }).1 ∧
    isActive { RecState.none0 with current := none } = false ∧
    (withDependencyRecordingDisabled
        (fun st => ((Except.ok 42 : Except Unit Nat), st))
        RecState.none0).2.current =
      RecState.none0.current :=
  withDependencyRecordingDisabled_restores
    (fun st => ((Except.ok 42 : Except Unit Nat), st)) RecState.none0

/-- Claim C9: `initCore(node)` requires `node.version == 0`; a non-zero
version fails the `DCHECK` (fatal in debug builds); under the precondition
it synchronously runs `refresh` at the current global version. -/
theorem initCore_precondition_version_zero (debug : Bool) (s : MState)
    (i v : Nat) (h : lookupVer s.coreVer i = some v) :
    (v = 0 →
      initCore debug s i = DResult.ok (coreRefresh s i s.version) ∧
      (coreRefresh s i s.version).refreshLog =
        s.refreshLog ++ [(i, s.version)]) ∧
    (v ≠ 0 → initCore true s i = DResult.dcheckFailed) := by
  constructor
  · intro hv
    subst hv
    constructor
    · unfold initCore
      rw [h]
      simp
    · unfold coreRefresh
      rw [h]
  · intro hv
    unfold initCore
    rw [h]
    simp [hv]

/-- Witness for C9: a fresh core 4 (version 0) is initialized with a
synchronous refresh at version 1; had its version been non-zero the
`DCHECK` would fail. -/
theorem initCore_precondition_version_zero_witness :
    ((0 : Nat) = 0 →
      initCore true (createCore MState.init 4) 4 =
        DResult.ok
          (coreRefresh (createCore MState.init 4) 4
            (createCore MState.init 4).version) ∧
      (coreRefresh (createCore MState.init 4) 4
          (createCore MState.init 4).version).refreshLog =
        (createCore MState.init 4).refreshLog ++
          [(4, (createCore MState.init 4).version)]) ∧
    ((0 : Nat) ≠ 0 →
      initCore true (createCore MState.init 4) 4 = DResult.dcheckFailed) :=
  initCore_precondition_version_zero true (createCore MState.init 4) 4 0
    (by decide)

/-- Claim C10: with no active recorder frame, `markRefreshDependency` and
`unmarkRefreshDependency` return silently — no detector mutation, no
fatal, no assertion — in both debug and release builds, while
`markDependency` fails its `DCHECK(currentDependencies_)`. -/
theorem inactive_frame_refresh_marks_silent (debug : Bool) (s : RecState)
    (cd : CycleDetector) (core d : Nat) (hcur : s.current = none) :
    markRefreshDependency debug s cd core = FResult.ok cd ∧
    unmarkRefreshDependency debug s cd core = cd ∧
    markDependency s d = DResult.dcheckFailed := by
  unfold markRefreshDependency unmarkRefreshDependency markDependency
  rw [hcur]
  cases debug
  · exact ⟨rfl, rfl, rfl⟩
  · exact ⟨rfl, rfl, rfl⟩

/-- Witness for C10: on a thread with no recorder, with a non-empty
detector, both refresh marks are silent no-ops and `markDependency`
asserts. -/
theorem inactive_frame_refresh_marks_silent_witness :
    markRefreshDependency true RecState.none0 ⟨[(1, 2)]⟩ 2 =
      FResult.ok ⟨[(1, 2)]⟩ ∧
    unmarkRefreshDependency true RecState.none0 ⟨[(1, 2)]⟩ 2 = ⟨[(1, 2)]⟩ ∧
    markDependency RecState.none0 9 = DResult.dcheckFailed :=
  inactive_frame_refresh_marks_silent true RecState.none0 ⟨[(1, 2)]⟩ 2 9 rfl

end ObserverManager
